import Mathlib

/-!
Shallow embedding of `src/beep_melody.c` (the RTTTL-style melody decoder and
playback sequencer).  Strings are modelled as `List Char` (the C code never
stores an interior NUL in a melody, so the NUL terminator is represented by
the end of the list).  The C `int` values that appear (durations in
microseconds, frequencies, parameter values) stay far below 2^31, so they are
modelled as `Nat` / `Int` without wrap-around.  Side effects (device writes,
sleeps, stderr diagnostics) are modelled as explicit lists of events and
warning strings.
-/

namespace BeepMelody

/-- C `isspace` for the ASCII characters a melody line can contain
(space, tab, newline, vertical tab, form feed, carriage return). -/
def c_isspace (c : Char) : Bool :=
  c = ' ' || c = '\t' || c = '\n' || c.toNat = 11 || c.toNat = 12 || c = '\r'

/-- C `isdigit`: the ASCII codes of `0` and `9` are 48 and 57. -/
def c_isdigit (c : Char) : Bool :=
  48 ≤ c.toNat && c.toNat ≤ 57

/-- `skip_ws` from the source: advance past leading whitespace. -/
def skip_ws (s : List Char) : List Char := s.dropWhile c_isspace

/-- The `tone[4][12]` frequency table from `parse_note`
(rows: octaves 4..7; columns: C, C#, D, D#, E, F, F#, G, G#, A, A#, B). -/
def tone : List (List Nat) :=
  [ [262, 277, 294, 311, 330, 349, 370, 392, 415, 440, 466, 494],
    [523, 554, 587, 622, 659, 698, 740, 784, 831, 880, 932, 988],
    [1047, 1109, 1175, 1245, 1319, 1397, 1480, 1568, 1661, 1760, 1865, 1976],
    [2093, 2217, 2349, 2489, 2637, 2794, 2960, 3136, 3322, 3520, 3729, 3951] ]

/-- The `note_tone_col[2][7]` table from `parse_note`
(rows: sharp=0, sharp=1; columns: letters A, B, C, D, E, F, G). -/
def note_tone_col : List (List Nat) :=
  [ [9, 11, 0, 2, 4, 5, 7],
    [10, 11, 1, 3, 4, 6, 8] ]

/-- `note_tone_col[sharp][note - 65]` (65 is the code of the letter A). -/
def note_tone_col_at (sharp : Nat) (note : Char) : Nat :=
  (note_tone_col.getD sharp []).getD (note.toNat - 65) 0

/-- `tone[cur_octave - 4][col]`. -/
def tone_at (oct col : Nat) : Nat :=
  (tone.getD (oct - 4) []).getD col 0

/-- The resolved melody defaults: the globals `octave`, `duration`, `tempo`
and `whole_note_ms` of the source, packaged as a value. -/
structure Defaults where
  octave : Nat
  duration : Nat
  tempo : Nat
  whole_note_ms : Nat
deriving DecidableEq

/-- ASCII lower-case to upper-case conversion, as `parse_note` does with
`if (c >= 'a' && c <= 'z') c -= 'a' - 'A';` (32 is the code distance). -/
def upChar (c : Char) : Char :=
  if 'a' ≤ c ∧ c ≤ 'z' then Char.ofNat (c.toNat - 32) else c

/-- The duration-prefix `switch` at the top of `parse_note`: `16` and `32`
are recognised as two-character prefixes, `1`, `2`, `4`, `8` as single
digits (a `1` not followed by `6` falls through to the single-digit case),
a `3` not followed by `2` is an error, and any other character means the
default duration is used and no input is consumed. -/
def parse_duration (s : List Char) (dflt : Nat) : Except String (Nat × List Char) :=
  match s with
  | '1' :: '6' :: rest => .ok (16, rest)
  | '1' :: rest => .ok (1, rest)
  | '2' :: rest => .ok (2, rest)
  | '4' :: rest => .ok (4, rest)
  | '8' :: rest => .ok (8, rest)
  | '3' :: '2' :: rest => .ok (32, rest)
  | '3' :: _ => .error "expected duration 32"
  | _ => .ok (dflt, s)

/-- The frequency computed at the end of `parse_note`:
`(note == 'P') ? 0 : tone[cur_octave - 4][note_tone_col[sharp][note - 'A']]`. -/
def noteFreq (note : Char) (sharp : Nat) (oct : Nat) : Nat :=
  if note = 'P' then 0 else tone_at oct (note_tone_col_at sharp note)

/-- `parse_note` from the source: one note token (already cut out of the
note list) is resolved against the defaults to a `(freq, duration_usec)`
pair, or rejected with the warning text the C code logs (the warning
carries the 1-based note index `ni`). -/
def parse_note (ni : Nat) (s : List Char) (d : Defaults) : Except String (Nat × Nat) :=
  match parse_duration s d.duration with
  | .error m => .error ("Note #" ++ toString ni ++ ": " ++ m)
  | .ok (cur_duration, p1) =>
    let dur0 := d.whole_note_ms * 1000 / cur_duration
    match p1 with
    | [] => .error ("Note #" ++ toString ni ++ ": expected note (CDEFGAB)")
    | c0 :: p2 =>
      let note := upChar c0
      if ('A' ≤ note ∧ note ≤ 'G') ∨ note = 'P' then
        let sdp : Nat × Bool × List Char :=
          match p2 with
          | '#' :: '.' :: r => (1, true, r)
          | '#' :: r => (1, false, r)
          | '.' :: r => (0, true, r)
          | _ => (0, false, p2)
        let sharp := sdp.1
        let dot := sdp.2.1
        let p3 := sdp.2.2
        let dur1 := if dot then dur0 + dur0 / 2 else dur0
        match p3 with
        | [] => .ok (noteFreq note sharp d.octave, dur1)
        | oc :: _ =>
          if oc < '4' ∨ '7' < oc then
            .error ("Note #" ++ toString ni ++ ": expected octave (4-7)")
          else .ok (noteFreq note sharp (oc.toNat - 48), dur1)
      else .error ("Note #" ++ toString ni ++ ": expected note (CDEFGAB)")

/-- The digit-accumulation loop of `char_eq_num`:
`while (isdigit(*s) && *n < 999) { *n = *n * 10 + (*s - '0'); s++; }`.
Returns the accumulated value and the unconsumed remainder. -/
def digits_loop : Nat → List Char → Nat × List Char
  | n, [] => (n, [])
  | n, c :: rest =>
    if c_isdigit c && n < 999 then digits_loop (n * 10 + (c.toNat - 48)) rest
    else (n, c :: rest)

/-- Result of `char_eq_num`: `empty` is the NULL return with `*err = 0`
(end of the defaults block), `fail` the NULL return with `*err = -1`
(malformed pair), and `ok` carries the out-parameters `*c`, `*n` and the
returned pointer (the remainder of the block). -/
inductive CENResult where
  | empty : CENResult
  | fail : CENResult
  | ok (c : Char) (n : Nat) (rest : List Char) : CENResult
deriving DecidableEq

/-- `char_eq_num` from the source: parse one `letter=num` pair, then require
`,` (consumed) or end of block. -/
def char_eq_num (s : List Char) : CENResult :=
  match skip_ws s with
  | [] => .empty
  | c :: s1 =>
    match skip_ws s1 with
    | '=' :: s2 =>
      match skip_ws s2 with
      | [] => .fail
      | d :: s3 =>
        if c_isdigit d then
          match digits_loop (d.toNat - 48) s3 with
          | (n, []) => .ok c n []
          | (n, ',' :: s5) => .ok c n s5
          | _ => .fail
        else .fail
    | _ => .fail

/-- `defaults[(c) - 'a']`: the index into the `int num[26]` array
(97 is the code of the letter a). -/
def defaultsIdx (c : Char) : Int := (c.toNat : Int) - 97

/-- The `while (s = char_eq_num(...))` loop of `parse_char_eq_num_str`.
The `num` array is modelled as a total map from the C index `c - 'a'`
to the stored value (`-1` = missing, as the source initialises it).
The loop runs with explicit fuel; each successfully parsed pair consumes
at least three characters of the block, so the caller's fuel
`s.length + 1` can never run out (see `pcen_go_fuel_irrelevant`). -/
def pcen_go : Nat → List Char → (Int → Int) → List String → (Int → Int) × List String × Int
  | 0, _, num, ws => (num, ws, -1)
  | fuel + 1, s, num, ws =>
    match char_eq_num s with
    | .empty => (num, ws, 0)
    | .fail => (num, ws, -1)
    | .ok c n rest =>
      if num (defaultsIdx c) < 0 then
        pcen_go fuel rest (fun j => if j = defaultsIdx c then (n : Int) else num j) ws
      else
        pcen_go fuel rest num
          (ws ++ ["Default param " ++ c.toString ++ " has been already set"])

/-- `parse_char_eq_num_str` from the source: fills the `num[26]` map
(first occurrence wins, duplicates warn) and returns the final `err`
status of the loop (`0` = clean end of block, `-1` = malformed pair). -/
def parse_char_eq_num_str (s : List Char) : (Int → Int) × List String × Int :=
  pcen_go (s.length + 1) s (fun _ => -1) []

/-- `set_defaults` from the source: validate the three required parameters
and derive `whole_note_ms = (60000 * 4) / tempo`.  Errors carry the exact
`ERR` texts of the source. -/
def set_defaults (num : Int → Int) : Except String Defaults :=
  let no := num (defaultsIdx 'o')
  if no < 0 then .error "Missing required default octave"
  else if no < 4 ∨ 7 < no then .error "Invalid default octave, must be 4-7"
  else
    let nd := num (defaultsIdx 'd')
    if nd < 0 then .error "Missing required default duration"
    else if nd ≠ 1 ∧ nd ≠ 2 ∧ nd ≠ 4 ∧ nd ≠ 8 ∧ nd ≠ 16 ∧ nd ≠ 32 then
      .error "Invalid default duration, must be 1,2,4,8,16,32"
    else
      let nb := num (defaultsIdx 'b')
      if nb < 0 then .error "Missing required default beats"
      else if nb < 40 ∨ 200 < nb then .error "Invalid default beats, must be 40-200"
      else
        .ok { octave := no.toNat, duration := nd.toNat, tempo := nb.toNat,
              whole_note_ms := 60000 * 4 / nb.toNat }

/-- One emitted side effect of playback: a `SND_TONE` device write with the
given frequency value, or a `usleep` of the given number of microseconds. -/
inductive Event where
  | tone (freq : Nat) : Event
  | wait (usec : Nat) : Event
deriving DecidableEq

/-- `beeper_tone` from the source: tone-on write, sleep for the note
duration, tone-off write (frequency 0). -/
def beeper_tone (freq duration_usec : Nat) : List Event :=
  [Event.tone freq, Event.wait duration_usec, Event.tone 0]

/-- Final status of `play`: clean return 0, error return -1 with the `ERR`
text, or `crash` for the one input class on which the C code executes
undefined behaviour (passing NULL to `strchr`, which faults). -/
inductive PlayRes where
  | ok : PlayRes
  | err (msg : String) : PlayRes
  | crash (msg : String) : PlayRes
deriving DecidableEq

/-- Observable outcome of `play`: the device events emitted (in order), the
`WARN` diagnostics logged (in order), and the final status. -/
structure PlayOut where
  events : List Event
  warns : List String
  res : PlayRes
deriving DecidableEq

/-- The note loop of `play`: for each comma-separated token (leading
whitespace skipped), a token of 32 or more characters overflows `buf` and
aborts with `Too long note #i`; a token `parse_note` rejects is skipped
(warning logged, `continue`); a resolved token is emitted via `beeper_tone`
followed by the extra `usleep(duration_usec / 4)` gap.  The loop runs on
explicit fuel; each iteration consumes at least one character (the token
plus its separator), so the caller's fuel `cs.length + 1` can never run
out (see `play_notes_fuel_irrelevant`). -/
def play_notes (d : Defaults) : Nat → List Char → Nat → List String → List Event → PlayOut
  | _, [], _, ws, evs => ⟨evs, ws, .ok⟩
  | 0, _ :: _, _, ws, evs => ⟨evs, ws, .err "out of fuel"⟩
  | fuel + 1, c :: cs, i, ws, evs =>
    let cs1 := skip_ws (c :: cs)
    let tok := cs1.takeWhile (fun x => x != ',')
    let rest := cs1.drop (tok.length + 1)
    if 32 ≤ tok.length then ⟨evs, ws, .err ("Too long note #" ++ toString i)⟩
    else
      match parse_note i tok d with
      | .error w => play_notes d fuel rest (i + 1) (ws ++ [w]) evs
      | .ok (freq, duration_usec) =>
        play_notes d fuel rest (i + 1) ws
          (evs ++ beeper_tone freq duration_usec ++ [Event.wait (duration_usec / 4)])

/-- `strchr`: split a list at the first occurrence of `c`, returning the
part before it and the part after it, or `none` when `c` does not occur. -/
def splitFirst (c : Char) : List Char → Option (List Char × List Char)
  | [] => none
  | x :: rest =>
    if x = c then some ([], rest)
    else (splitFirst c rest).map (fun pr => (x :: pr.1, pr.2))

/-- `play` from the source.  Faithful to the code, including its two slips
around the colon handling:
 * when the melody contains no `:` at all, `p` stays NULL and the code
   reaches `strchr(p, ':')` before the `if (!p)` test — a NULL dereference,
   modelled as `crash`;
 * when the melody contains exactly one `:`, the text before it is consumed
   as the (discarded) name, the second `strchr` returns NULL, and on the
   target platform the signed pointer difference `q - p` is negative and
   converts to a huge `size_t`, so `q - p >= sizeof(buf)` is true and play
   errors with `Too long defaults section` (the pointer subtraction itself
   is formally undefined; the model follows what the compiled code does). -/
def play (melody : List Char) : PlayOut :=
  match splitFirst ':' melody with
  | none => ⟨[], [], .crash "strchr(NULL)"⟩
  | some (_name, p) =>
    match splitFirst ':' p with
    | none => ⟨[], [], .err "Too long defaults section"⟩
    | some (dsec, rest) =>
      if 32 ≤ dsec.length then ⟨[], [], .err "Too long defaults section"⟩
      else
        let r := parse_char_eq_num_str dsec
        if r.2.2 ≠ 0 then ⟨[], r.2.1, .err "Failed to parse defaults section"⟩
        else
          match set_defaults r.1 with
          | .error msg => ⟨[], r.2.1, .err msg⟩
          | .ok d => play_notes d (rest.length + 1) rest 1 r.2.1 []

/-! ## Supporting lemmas -/

/-- A token with no leading whitespace leaves the whole remainder unchanged
under the loop's `skip_ws`. -/
lemma skip_ws_token (tok rest : List Char) (h : List.dropWhile c_isspace tok = tok) :
  skip_ws (tok ++ ',' :: rest) = tok ++ ',' :: rest := by
  cases tok with
  | nil => simp [skip_ws, List.dropWhile_cons, c_isspace]
  | cons x t =>
    have hx : ¬ c_isspace x = true := by
      intro hc
      rw [List.dropWhile_cons_of_pos hc] at h
      have h1 : (List.dropWhile c_isspace t).length ≤ t.length :=
        (List.dropWhile_sublist c_isspace).length_le
      rw [h] at h1
      simp at h1
    simp [skip_ws, List.cons_append, List.dropWhile_cons_of_neg hx]

/-- The loop's `strchr(p, ',')` cuts exactly the comma-free token. -/
lemma takeWhile_token (tok rest : List Char) (h : ',' ∉ tok) :
  (tok ++ ',' :: rest).takeWhile (fun x => x != ',') = tok := by
  induction tok with
  | nil => simp
  | cons x t ih =>
    have hx : x ≠ ',' := fun e => h (by simp [e])
    have ht : ',' ∉ t := fun m => h (by simp [m])
    simp [List.cons_append, List.takeWhile_cons, hx, ih ht]

/-- Advancing `p = ++q` past the comma leaves exactly the remaining tokens. -/
lemma drop_token (tok rest : List Char) :
  (tok ++ ',' :: rest).drop (tok.length + 1) = rest := by
  simp

/-- One iteration of the note loop on a comma-terminated token: overlong
tokens abort, tokens rejected by `parse_note` are skipped with a warning,
resolved tokens emit the `beeper_tone` writes plus the extra quarter gap. -/
lemma play_notes_step (d : Defaults) (f i : Nat) (ws : List String) (evs : List Event)
    (tok rest : List Char)
    (h1 : List.dropWhile c_isspace tok = tok) (h2 : ',' ∉ tok) :
  play_notes d (f + 1) (tok ++ ',' :: rest) i ws evs =
    if 32 ≤ tok.length then ⟨evs, ws, .err ("Too long note #" ++ toString i)⟩
    else
      match parse_note i tok d with
      | .error w => play_notes d f rest (i + 1) (ws ++ [w]) evs
      | .ok (freq, duration_usec) =>
        play_notes d f rest (i + 1) ws
          (evs ++ beeper_tone freq duration_usec ++ [Event.wait (duration_usec / 4)]) := by
  have hds := skip_ws_token tok rest h1
  have ht := takeWhile_token tok rest h2
  have hd := drop_token tok rest
  cases tok with
  | nil =>
    simp only [List.nil_append] at hds ht hd ⊢
    rw [play_notes]
    rw [hds, ht, hd]
  | cons x t =>
    simp only [List.cons_append] at hds ht hd ⊢
    rw [play_notes]
    rw [hds, ht, hd]

/-- `strchr` finds the first occurrence: splitting a list at a separator
that does not occur in the prefix returns exactly that prefix. -/
lemma splitFirst_append (c : Char) (a b : List Char) (h : c ∉ a) :
  splitFirst c (a ++ c :: b) = some (a, b) := by
  induction a with
  | nil => simp [splitFirst]
  | cons x t ih =>
    have hx : ¬ x = c := fun e => h (by simp [e])
    have ht : c ∉ t := fun m => h (by simp [m])
    simp [splitFirst, hx, ih ht]

/-- The digit loop only accumulates while the value is below 999 and each
accumulated digit is at most 9, so no accumulated value can pass 9989. -/
lemma digits_loop_le (s : List Char) (n : Nat) (h : n ≤ 9989) :
  (digits_loop n s).1 ≤ 9989 := by
  induction s generalizing n with
  | nil => simpa [digits_loop]
  | cons c rest ih =>
    by_cases hc : (c_isdigit c && decide (n < 999)) = true
    · have hc1 : c_isdigit c = true := (Bool.and_eq_true _ _).mp hc |>.1
      have hc2 : n < 999 := by
        have := (Bool.and_eq_true _ _).mp hc |>.2
        exact of_decide_eq_true this
      have hc3 : c.toNat ≤ 57 := by
        have h' := hc1
        simp only [c_isdigit, Bool.and_eq_true, decide_eq_true_eq] at h'
        omega
      rw [digits_loop, if_pos hc]
      exact ih _ (by omega)
    · rw [digits_loop, if_neg hc]
      simpa using h

/-- The digit loop never invents characters: its remainder is a suffix. -/
lemma digits_loop_suffix_le (s : List Char) (n : Nat) :
  ((digits_loop n s).2).length ≤ s.length := by
  induction s generalizing n with
  | nil => simp [digits_loop]
  | cons c rest ih =>
    by_cases hc : (c_isdigit c && decide (n < 999)) = true
    · rw [digits_loop, if_pos hc]
      calc ((digits_loop (n * 10 + (c.toNat - 48)) rest).2).length
          ≤ rest.length := ih _
        _ ≤ (c :: rest).length := by simp
    · rw [digits_loop, if_neg hc]

/-- A successfully parsed `letter=num` pair consumes at least one character
of the defaults block. -/
lemma char_eq_num_ok_length (s : List Char) (c : Char) (n : Nat) (rest : List Char)
    (h : char_eq_num s = .ok c n rest) : rest.length < s.length := by
  have hsw : (skip_ws s).length ≤ s.length := (List.dropWhile_sublist c_isspace).length_le
  unfold char_eq_num at h
  split at h
  · exact absurd h (by simp)
  · rename_i c0 s1 hs0
    have hs1 : s1.length < s.length := by
      have : (c0 :: s1).length ≤ s.length := by rw [← hs0]; exact hsw
      simp at this; omega
    have hsw1 : (skip_ws s1).length ≤ s1.length := (List.dropWhile_sublist c_isspace).length_le
    split at h
    · rename_i s2 hs2
      have hs2l : s2.length < s1.length := by
        have : ('=' :: s2).length ≤ s1.length := by rw [← hs2]; exact hsw1
        simp at this; omega
      have hsw2 : (skip_ws s2).length ≤ s2.length := (List.dropWhile_sublist c_isspace).length_le
      split at h
      · exact absurd h (by simp)
      · rename_i d s3 hs3
        have hs3l : s3.length < s2.length := by
          have : (d :: s3).length ≤ s2.length := by rw [← hs3]; exact hsw2
          simp at this; omega
        split at h
        · have hdlsuf := digits_loop_suffix_le s3 (d.toNat - 48)
          split at h
          · rename_i n0 hdl
            injection h with h1 h2 h3
            subst h3
            simp
            omega
          · rename_i n0 s5 hdl
            injection h with h1 h2 h3
            subst h3
            rw [hdl] at hdlsuf
            simp at hdlsuf
            omega
          · exact absurd h (by simp)
        · exact absurd h (by simp)
    · exact absurd h (by simp)

/-- The fuel given to `pcen_go` by `parse_char_eq_num_str` is irrelevant
slack: any two sufficient fuels compute the same result, so the
fuel-exhaustion branch is unreachable from `parse_char_eq_num_str`. -/
lemma pcen_go_fuel_irrelevant (f1 : Nat) :
  ∀ (s : List Char) (f2 : Nat) (num : Int → Int) (ws : List String),
    s.length < f1 → s.length < f2 →
    pcen_go f1 s num ws = pcen_go f2 s num ws := by
  induction f1 with
  | zero => intro s f2 num ws h1 h2; omega
  | succ f1 ih =>
    intro s f2 num ws h1 h2
    cases f2 with
    | zero => omega
    | succ f2 =>
      rw [pcen_go, pcen_go]
      split
      · rfl
      · rfl
      · rename_i c n rest heq
        have hlen := char_eq_num_ok_length s c n rest heq
        split
        · exact ih rest f2 _ _ (by omega) (by omega)
        · exact ih rest f2 _ _ (by omega) (by omega)

/-- Each iteration of the note loop strictly shortens the remaining input. -/
lemma notes_rest_length_lt (c : Char) (cs0 : List Char) :
  ((skip_ws (c :: cs0)).drop
      (((skip_ws (c :: cs0)).takeWhile (fun x => x != ',')).length + 1)).length
    < (c :: cs0).length := by
  have h1 : (skip_ws (c :: cs0)).length ≤ (c :: cs0).length :=
    (List.dropWhile_sublist c_isspace).length_le
  simp only [List.length_drop, List.length_cons] at h1 ⊢
  omega

/-- The fuel given to `play_notes` by `play` is irrelevant slack: any two
sufficient fuels compute the same result, so the fuel-exhaustion branch is
unreachable from `play`. -/
lemma play_notes_fuel_irrelevant (d : Defaults) (f1 : Nat) :
  ∀ (cs : List Char) (f2 i : Nat) (ws : List String) (evs : List Event),
    cs.length < f1 → cs.length < f2 →
    play_notes d f1 cs i ws evs = play_notes d f2 cs i ws evs := by
  induction f1 with
  | zero => intro cs f2 i ws evs h1 h2; omega
  | succ f1 ih =>
    intro cs f2 i ws evs h1 h2
    cases cs with
    | nil => cases f2 with | zero => omega | succ f2 => rfl
    | cons c cs0 =>
      cases f2 with
      | zero => omega
      | succ f2 =>
        have hrest := notes_rest_length_lt c cs0
        rw [play_notes, play_notes]
        split
        · rfl
        · split
          · exact ih _ f2 _ _ _ (Nat.lt_of_lt_of_le hrest (Nat.lt_succ_iff.mp h1))
              (Nat.lt_of_lt_of_le hrest (Nat.lt_succ_iff.mp h2))
          · exact ih _ f2 _ _ _ (Nat.lt_of_lt_of_le hrest (Nat.lt_succ_iff.mp h1))
              (Nat.lt_of_lt_of_le hrest (Nat.lt_succ_iff.mp h2))

/-- `set_defaults` on a defaults map violating any of the three required
ranges fails, and the error text names the offending field. -/
lemma set_defaults_error (num : Int → Int)
    (hbad : ¬ (4 ≤ num (defaultsIdx 'o') ∧ num (defaultsIdx 'o') ≤ 7 ∧
               (num (defaultsIdx 'd') = 1 ∨ num (defaultsIdx 'd') = 2 ∨
                num (defaultsIdx 'd') = 4 ∨ num (defaultsIdx 'd') = 8 ∨
                num (defaultsIdx 'd') = 16 ∨ num (defaultsIdx 'd') = 32) ∧
               40 ≤ num (defaultsIdx 'b') ∧ num (defaultsIdx 'b') ≤ 200)) :
  ∃ msg, set_defaults num = Except.error msg ∧
    msg ∈ ["Missing required default octave", "Invalid default octave, must be 4-7",
           "Missing required default duration",
           "Invalid default duration, must be 1,2,4,8,16,32",
           "Missing required default beats", "Invalid default beats, must be 40-200"] := by
  simp only [set_defaults]
  split_ifs with h1 h2 h3 h4 h5 h6
  · exact ⟨_, rfl, by simp⟩
  · exact ⟨_, rfl, by simp⟩
  · exact ⟨_, rfl, by simp⟩
  · exact ⟨_, rfl, by simp⟩
  · exact ⟨_, rfl, by simp⟩
  · exact ⟨_, rfl, by simp⟩
  · exact absurd (by omega) hbad

/-! ## Claim theorems -/

/-- Claim C1 (refuted; the code contradicts its own comment, which says the
name segment is optional): on a melody with no name segment and exactly one
`:` (a valid defaults block before it and a note list after it), `play` does
not parse the defaults at all.  It consumes the defaults text as the
discarded name, finds no second `:`, and fails with the (wrong) error
`Too long defaults section`, playing nothing. -/
theorem C1_one_colon_fails :
  play ("o=5,d=4,b=120:c6".data) = ⟨[], [], .err "Too long defaults section"⟩ := by
  decide

/-- Claim C2 (refuted; the `if (!p)` check at line 320 comes after the
`strchr(p, ':')` call at line 319 that it should guard): on an input with no
`:` at all, `play` passes NULL to `strchr` — undefined behaviour (a fault),
not the clean `Missing required defaults section` error return. -/
theorem C2_no_colon_crashes :
  play ("o=5,d=4,b=120".data) = ⟨[], [], .crash "strchr(NULL)"⟩ := by
  decide

/-- Claim C3, counterexample: the defaults-numeric parser does not clamp at
999.  The digit loop tests `*n < 999` before accumulating the next digit,
so `o=1000` is accepted with value 1000 (exceeding 999), and `o=9999` is
not accepted at all — the loop stops at 999 with a digit left over, which
is neither `,` nor end of block, so the pair is rejected. -/
theorem C3_counterexample :
  char_eq_num ("o=1000".data) = CENResult.ok 'o' 1000 [] ∧
  ¬ (1000 : Nat) ≤ 999 ∧
  char_eq_num ("o=9999".data) = CENResult.fail := by
  decide

/-- Claim C3, amended: the digit loop accumulates only while the value so
far is below 999, so any accepted defaults pair has value at most
9989 (= 998 * 10 + 9); literals whose digits are not exhausted when the
cap is reached (e.g. `9999`) are rejected with an error, not clamped. -/
theorem C3_value_bounded (s : List Char) (c : Char) (n : Nat) (rest : List Char)
    (h : char_eq_num s = CENResult.ok c n rest) : n ≤ 9989 := by
  have hb : ∀ (d : Char), c_isdigit d = true → d.toNat - 48 ≤ 9989 := by
    intro d hd
    simp only [c_isdigit, Bool.and_eq_true, decide_eq_true_eq] at hd
    omega
  unfold char_eq_num at h
  split at h
  · exact absurd h (by simp)
  · split at h
    · split at h
      · exact absurd h (by simp)
      · rename_i d s3 hs3
        split at h
        · rename_i hd
          have hle := digits_loop_le s3 (d.toNat - 48) (hb d hd)
          split at h
          · rename_i n0 hdl
            injection h with h1 h2 h3
            subst h2
            rw [hdl] at hle
            exact hle
          · rename_i n0 s5 hdl
            injection h with h1 h2 h3
            subst h2
            rw [hdl] at hle
            exact hle
          · exact absurd h (by simp)
        · exact absurd h (by simp)
    · exact absurd h (by simp)

/-- Claim C3, witness for the amended bound at a concrete input. -/
theorem C3_value_bounded_witness :
  char_eq_num ("o=1000".data) = CENResult.ok 'o' 1000 [] ∧ (1000 : Nat) ≤ 9989 :=
  ⟨by decide, C3_value_bounded ("o=1000".data) 'o' 1000 [] (by decide)⟩

/-- Claim C4: a note token that `parse_note` rejects (and that fits the
32-byte buffer) is skipped: its warning — carrying the 1-based note index —
is appended to the log, no event is emitted for it, and the loop continues
with the rest of the note list at the next index, with the events of the
preceding notes intact.  Play is not aborted by such a token. -/
theorem C4_malformed_note_skipped (f : Nat) (d : Defaults) (i : Nat) (ws : List String)
    (evs : List Event) (tok rest : List Char) (w : String)
    (h1 : List.dropWhile c_isspace tok = tok) (h2 : ',' ∉ tok) (h3 : tok.length < 32)
    (h4 : parse_note i tok d = .error w) :
  play_notes d (f + 1) (tok ++ ',' :: rest) i ws evs
    = play_notes d f rest (i + 1) (ws ++ [w]) evs := by
  rw [play_notes_step d f i ws evs tok rest h1 h2, if_neg (by omega), h4]

/-- Claim C4, witness: the malformed token `X9` of the spec's example
`4d.6,X9,c6` (at note index 2, under defaults o=5, d=4, b=125) is skipped
with the indexed warning, and the loop proceeds to `c6` at index 3. -/
theorem C4_malformed_note_skipped_witness :
  play_notes ⟨5, 4, 125, 1920⟩ 2 ("X9,c6".data) 2 [] []
    = play_notes ⟨5, 4, 125, 1920⟩ 1 ("c6".data) 3
        ["Note #2: expected note (CDEFGAB)"] [] := by
  have h := C4_malformed_note_skipped 1 ⟨5, 4, 125, 1920⟩ 2 [] [] ("X9".data)
    ("c6".data) "Note #2: expected note (CDEFGAB)"
    (by decide) (by decide) (by decide) rfl
  simpa using h

/-- Claim C10: a note token of 32 or more characters is fatal.  The loop
stops at that token with the error `Too long note #i` carrying the note
index; the events already emitted for earlier notes stand, but nothing
after the overlong token is processed — in contrast with grammar-level
malformed tokens, which are merely skipped. -/
theorem C10_long_token_fatal (f : Nat) (d : Defaults) (i : Nat) (ws : List String)
    (evs : List Event) (tok rest : List Char)
    (h1 : List.dropWhile c_isspace tok = tok) (h2 : ',' ∉ tok) (h3 : 32 ≤ tok.length) :
  play_notes d (f + 1) (tok ++ ',' :: rest) i ws evs
    = ⟨evs, ws, .err ("Too long note #" ++ toString i)⟩ := by
  rw [play_notes_step d f i ws evs tok rest h1 h2, if_pos h3]

/-- Claim C10, witness: a 32-character token aborts play at once with the
indexed error, and the following `c6` is never reached. -/
theorem C10_long_token_fatal_witness :
  play_notes ⟨5, 4, 125, 1920⟩ 1 (List.replicate 32 'a' ++ ',' :: ("c6".data)) 1 [] []
    = ⟨[], [], .err "Too long note #1"⟩ :=
  C10_long_token_fatal 0 ⟨5, 4, 125, 1920⟩ 1 [] [] (List.replicate 32 'a') ("c6".data)
    (by decide) (by decide) (by decide)

/-- Claim C5: every successfully resolved note is emitted as, in order,
tone-on at its frequency, a wait of `duration_usec`, tone-off (frequency 0),
and an extra wait of `duration_usec / 4` before the next note; moreover a
rest token (`P` or `p`) resolves to frequency 0 with the full default-length
duration, so it occupies exactly the same on/off/gap slot. -/
theorem C5_note_event_order (f : Nat) (d : Defaults) (i : Nat) (ws : List String)
    (evs : List Event) (tok rest : List Char) (freq duration_usec : Nat)
    (h1 : List.dropWhile c_isspace tok = tok) (h2 : ',' ∉ tok) (h3 : tok.length < 32)
    (h4 : parse_note i tok d = .ok (freq, duration_usec)) :
  (play_notes d (f + 1) (tok ++ ',' :: rest) i ws evs
    = play_notes d f rest (i + 1) ws
        (evs ++ [Event.tone freq, Event.wait duration_usec, Event.tone 0,
                 Event.wait (duration_usec / 4)])) ∧
  (∀ (ni : Nat) (e : Defaults),
    parse_note ni ['P'] e = .ok (0, e.whole_note_ms * 1000 / e.duration) ∧
    parse_note ni ['p'] e = .ok (0, e.whole_note_ms * 1000 / e.duration)) := by
  constructor
  · rw [play_notes_step d f i ws evs tok rest h1 h2, if_neg (by omega), h4]
    simp [beeper_tone]
  · exact fun ni e => ⟨rfl, rfl⟩

/-- Claim C5, witness: the rest token `p` under defaults o=5, d=4, b=125
resolves to frequency 0 and duration 480000 µs, and is sequenced as
tone-on 0, wait 480000, tone-off 0, wait 120000. -/
theorem C5_note_event_order_witness :
  play_notes ⟨5, 4, 125, 1920⟩ 1 ("p,c6".data) 1 [] []
    = play_notes ⟨5, 4, 125, 1920⟩ 0 ("c6".data) 2 []
        [Event.tone 0, Event.wait 480000, Event.tone 0, Event.wait 120000] := by
  have h := (C5_note_event_order 0 ⟨5, 4, 125, 1920⟩ 1 [] [] ['p'] ("c6".data) 0 480000
    (by decide) (by decide) (by decide) rfl).1
  simpa using h

/-- Claim C6: for a note token consisting of an optional duration prefix, a
note letter, an optional dot and an explicit octave digit, the resolved
duration is `whole_note_ms * 1000 / durationUnits`, where `durationUnits`
is the parsed prefix (nothing → default duration, `1`, `2`, `4`, `8`, `16`,
`32`), and a dot adds half of that value (integer truncation). -/
theorem C6_duration_formula (d : Defaults) (ni u : Nat) (dc : List Char) (L : Char)
    (dot : Bool) (oc : Char)
    (hdc : (dc = [] ∧ u = d.duration) ∨ (dc = ['1'] ∧ u = 1) ∨ (dc = ['2'] ∧ u = 2) ∨
           (dc = ['4'] ∧ u = 4) ∨ (dc = ['8'] ∧ u = 8) ∨ (dc = ['1', '6'] ∧ u = 16) ∨
           (dc = ['3', '2'] ∧ u = 32))
    (hL : L ∈ ['A', 'B', 'C', 'D', 'E', 'F', 'G', 'a', 'b', 'c', 'd', 'e', 'f', 'g'])
    (hoc : oc ∈ ['4', '5', '6', '7']) :
  parse_note ni (dc ++ [L] ++ (if dot then ['.'] else []) ++ [oc]) d
    = .ok (noteFreq (upChar L) 0 (oc.toNat - 48),
           if dot then d.whole_note_ms * 1000 / u + d.whole_note_ms * 1000 / u / 2
           else d.whole_note_ms * 1000 / u) := by
  rcases hdc with ⟨rfl, rfl⟩ | ⟨rfl, rfl⟩ | ⟨rfl, rfl⟩ | ⟨rfl, rfl⟩ | ⟨rfl, rfl⟩ |
    ⟨rfl, rfl⟩ | ⟨rfl, rfl⟩ <;>
  fin_cases hL <;> fin_cases hoc <;> cases dot <;> rfl

/-- Claim C6, witness: `4d.6` under o=5, d=4, b=125 (whole note 1920 ms)
resolves to frequency 1175 = tone[2][2] (D in octave 6, not sharp) and
duration (1920 * 1000 / 4) * 1.5 = 720000 µs. -/
theorem C6_duration_formula_witness :
  parse_note 1 ("4d.6".data) ⟨5, 4, 125, 1920⟩ = Except.ok (1175, 720000) := by
  have h := C6_duration_formula ⟨5, 4, 125, 1920⟩ 1 4 ['4'] 'd' true '6'
    (by decide) (by decide) (by decide)
  exact h

/-- Claim C7: a defaults map with octave in [4,7], duration in
{1, 2, 4, 8, 16, 32} and tempo in [40,200] — in whatever order the pairs
were written, since the map is keyed by letter — passes `set_defaults`,
and the derived whole-note length is exactly `240000 / tempo`. -/
theorem C7_valid_defaults_resolve (num : Int → Int) (o dv b : Int)
    (ho : num (defaultsIdx 'o') = o) (hd : num (defaultsIdx 'd') = dv)
    (hb : num (defaultsIdx 'b') = b)
    (ho1 : 4 ≤ o) (ho2 : o ≤ 7)
    (hdv : dv = 1 ∨ dv = 2 ∨ dv = 4 ∨ dv = 8 ∨ dv = 16 ∨ dv = 32)
    (hb1 : 40 ≤ b) (hb2 : b ≤ 200) :
  set_defaults num = Except.ok ⟨o.toNat, dv.toNat, b.toNat, 240000 / b.toNat⟩ := by
  simp only [set_defaults, ho, hd, hb]
  rw [if_neg (by omega), if_neg (by omega), if_neg (by omega), if_neg (by omega),
      if_neg (by omega), if_neg (by omega)]

/-- Claim C7, witness: the map for `o=5,d=4,b=125` resolves, with whole
note 240000 / 125 = 1920 ms. -/
theorem C7_valid_defaults_resolve_witness :
  set_defaults (fun j => if j = 14 then 5 else if j = 3 then 4 else if j = 1 then 125 else -1)
    = Except.ok ⟨5, 4, 125, 1920⟩ := by
  have h := C7_valid_defaults_resolve
    (fun j => if j = 14 then 5 else if j = 3 then 4 else if j = 1 then 125 else -1)
    5 4 125 (by decide) (by decide) (by decide) (by decide) (by decide) (by decide)
    (by decide) (by decide)
  exact h

/-- Claim C8: when the parsed defaults block (with a clean end-of-block
status) is missing any of o, d, b or carries an out-of-range value,
`set_defaults` fails with an error naming the offending field, and `play`
on the whole melody returns that error having emitted no tone event at
all. -/
theorem C8_bad_defaults_abort (name dsec rest : List Char)
    (hn : ':' ∉ name) (hd : ':' ∉ dsec) (hlen : dsec.length < 32)
    (he : (parse_char_eq_num_str dsec).2.2 = 0)
    (hbad : ¬ (4 ≤ (parse_char_eq_num_str dsec).1 (defaultsIdx 'o') ∧
               (parse_char_eq_num_str dsec).1 (defaultsIdx 'o') ≤ 7 ∧
               ((parse_char_eq_num_str dsec).1 (defaultsIdx 'd') = 1 ∨
                (parse_char_eq_num_str dsec).1 (defaultsIdx 'd') = 2 ∨
                (parse_char_eq_num_str dsec).1 (defaultsIdx 'd') = 4 ∨
                (parse_char_eq_num_str dsec).1 (defaultsIdx 'd') = 8 ∨
                (parse_char_eq_num_str dsec).1 (defaultsIdx 'd') = 16 ∨
                (parse_char_eq_num_str dsec).1 (defaultsIdx 'd') = 32) ∧
               40 ≤ (parse_char_eq_num_str dsec).1 (defaultsIdx 'b') ∧
               (parse_char_eq_num_str dsec).1 (defaultsIdx 'b') ≤ 200)) :
  ∃ msg, set_defaults (parse_char_eq_num_str dsec).1 = Except.error msg ∧
    msg ∈ ["Missing required default octave", "Invalid default octave, must be 4-7",
           "Missing required default duration",
           "Invalid default duration, must be 1,2,4,8,16,32",
           "Missing required default beats", "Invalid default beats, must be 40-200"] ∧
    play (name ++ (':' :: (dsec ++ (':' :: rest))))
      = ⟨[], (parse_char_eq_num_str dsec).2.1, .err msg⟩ := by
  obtain ⟨msg, hsd, hmem⟩ := set_defaults_error _ hbad
  refine ⟨msg, hsd, hmem, ?_⟩
  have hs1 : splitFirst ':' (name ++ (':' :: (dsec ++ (':' :: rest))))
      = some (name, dsec ++ (':' :: rest)) := splitFirst_append ':' name _ hn
  have hs2 : splitFirst ':' (dsec ++ (':' :: rest)) = some (dsec, rest) :=
    splitFirst_append ':' dsec rest hd
  simp only [play, hs1, hs2]
  rw [if_neg (by omega), he, if_neg (by decide), hsd]

/-- Claim C8, witness: `x:o=9,d=4,b=120:c` (octave 9 out of range) aborts
with the octave error and emits nothing. -/
theorem C8_bad_defaults_abort_witness :
  ∃ msg, set_defaults (parse_char_eq_num_str ("o=9,d=4,b=120".data)).1
      = Except.error msg ∧
    msg ∈ ["Missing required default octave", "Invalid default octave, must be 4-7",
           "Missing required default duration",
           "Invalid default duration, must be 1,2,4,8,16,32",
           "Missing required default beats", "Invalid default beats, must be 40-200"] ∧
    play (("x".data) ++ (':' :: (("o=9,d=4,b=120".data) ++ (':' :: ("c".data)))))
      = ⟨[], (parse_char_eq_num_str ("o=9,d=4,b=120".data)).2.1, .err msg⟩ :=
  C8_bad_defaults_abort ("x".data) ("o=9,d=4,b=120".data) ("c".data)
    (by decide) (by decide) (by decide) (by decide) (by decide)

/-- Claim C9: the chromatic-column table reproduces the documented mapping
(sharp=0 / sharp=1): A→9/10, B→11/11, C→0/1, D→2/3, E→4/4, F→5/6, G→7/8;
consequently, in every octave, `b#` resolves to the same frequency as `b`
and `e#` to the same frequency as `e` (also as whole parsed tokens). -/
theorem C9_chromatic_mapping :
  (note_tone_col_at 0 'A' = 9 ∧ note_tone_col_at 1 'A' = 10 ∧
   note_tone_col_at 0 'B' = 11 ∧ note_tone_col_at 1 'B' = 11 ∧
   note_tone_col_at 0 'C' = 0 ∧ note_tone_col_at 1 'C' = 1 ∧
   note_tone_col_at 0 'D' = 2 ∧ note_tone_col_at 1 'D' = 3 ∧
   note_tone_col_at 0 'E' = 4 ∧ note_tone_col_at 1 'E' = 4 ∧
   note_tone_col_at 0 'F' = 5 ∧ note_tone_col_at 1 'F' = 6 ∧
   note_tone_col_at 0 'G' = 7 ∧ note_tone_col_at 1 'G' = 8) ∧
  (∀ oct : Nat, noteFreq 'B' 1 oct = noteFreq 'B' 0 oct ∧
                noteFreq 'E' 1 oct = noteFreq 'E' 0 oct) ∧
  (∀ (d : Defaults) (ni : Nat),
    parse_note ni ['b', '#'] d = parse_note ni ['b'] d ∧
    parse_note ni ['e', '#'] d = parse_note ni ['e'] d) :=
  ⟨by decide, fun oct => ⟨rfl, rfl⟩, fun d ni => ⟨rfl, rfl⟩⟩

end BeepMelody
